import Mathlib

/-!
# JuhRadial MX — verification of the overlay logic

A shallow embedding of the radial-menu overlay of the JuhRadial MX
repository (files `overlay/juhradial-overlay.py`, `overlay/juhradial-gtk4.py`,
`overlay/overlay_cursor.py`, `overlay/overlay_constants.py`,
`overlay/overlay_actions.py`, `overlay/settings_config.py`,
`overlay/cursor_grabber.py`), together with theorems settling the spec
claims about it.

Modelling conventions:
* Python machine floats that only feed comparisons and truncations are
  modelled by `ℚ`; the transcendental quantities the code derives from the
  cursor offset (`math.hypot(dx, dy)` and the normalized
  `math.degrees(math.atan2(dx, -dy))`) are taken as parameters
  (`distance`, `angle`) of the hit-test, with their defining ranges
  (`0 ≤ distance`, `0 ≤ angle < 360`) as hypotheses where needed.
* Python `int(float)` truncates toward zero: `pyTrunc`.
* Python `%` on integers is Euclidean remainder, exactly Lean `Int.emod`.
* Fallible subprocess / IPC / D-Bus interactions are modelled by small
  outcome types enumerating the ways the call can end, and Python
  exception propagation by an `Except PyExc` layer with explicit
  `try/except` combinators.
-/

namespace JuhRadial

/-- Python `int()` applied to a rational value: truncation toward zero. -/
def pyTrunc (q : ℚ) : ℤ := if 0 ≤ q then ⌊q⌋ else ⌈q⌉

/-- `overlay_constants.MENU_RADIUS = 150`. -/
def MENU_RADIUS : ℚ := 150

/-- `overlay_constants.SHADOW_OFFSET = 12`. -/
def SHADOW_OFFSET : ℤ := 12

/-- `overlay_constants.CENTER_ZONE_RADIUS = 45`. -/
def CENTER_ZONE_RADIUS : ℚ := 45

/-- `overlay_constants.SUBMENU_EXTEND = 80`. -/
def SUBMENU_EXTEND : ℤ := 80

/-- `overlay_constants.WINDOW_SIZE = (MENU_RADIUS + SHADOW_OFFSET + SUBMENU_EXTEND) * 2`. -/
def WINDOW_SIZE : ℤ := (150 + SHADOW_OFFSET + SUBMENU_EXTEND) * 2

/-- The slice-index computation shared by `RadialMenu.on_cursor_moved`,
`RadialMenu._poll_cursor`, `RadialMenu.mouseMoveEvent`
(`juhradial-overlay.py`) and `_on_motion` (`juhradial-gtk4.py`):
`int((angle + 22.5) / 45) % 8`, where `angle` is
`math.degrees(math.atan2(dx, -dy))` brought into `[0, 360)` by adding 360
when negative (an angle measured clockwise from north). -/
def sliceOfAngle (angle : ℚ) : ℤ := pyTrunc ((angle + 45 / 2) / 45) % 8

/-- Hit-test of `RadialMenu.on_cursor_moved` (`juhradial-overlay.py`) and
`_on_motion` (`juhradial-gtk4.py`): no slice (`-1`) when the cursor
distance from the menu center is below the center-zone radius or beyond
`MENU_RADIUS`, otherwise the angular slice from `sliceOfAngle`.
`centerRadius` is the configured center-zone radius
(`self._get_center_radius()` in the overlay, the `CENTER_ZONE_RADIUS`
constant in the GTK4 variant). -/
def hitTestSlice (centerRadius distance angle : ℚ) : ℤ :=
  if distance < centerRadius ∨ distance > MENU_RADIUS then -1
  else sliceOfAngle angle

/-- The raw angular index `n = int((angle + 22.5) / 45)` lands in `{0, ..., 8}`
for a normalized angle, and `% 8` folds `8` back onto slice `0`. -/
lemma sliceOfAngle_eq_iff (θ : ℚ) (h0 : 0 ≤ θ) (h1 : θ < 360)
    (k : ℤ) (hk0 : 0 ≤ k) (hk7 : k ≤ 7) :
    sliceOfAngle θ = k ↔
      ((45 * k - 45 / 2 ≤ θ ∧ θ < 45 * k + 45 / 2) ∨ (k = 0 ∧ 360 - 45 / 2 ≤ θ)) := by
  have h45 : (0 : ℚ) < 45 := by norm_num
  have harg : 0 ≤ (θ + 45 / 2) / 45 := by positivity
  have htr : pyTrunc ((θ + 45 / 2) / 45) = ⌊(θ + 45 / 2) / 45⌋ := by
    simp [pyTrunc, harg]
  set n : ℤ := ⌊(θ + 45 / 2) / 45⌋ with hn
  have hn0 : 0 ≤ n := Int.floor_nonneg.mpr harg
  have hn9 : n < 9 := by
    rw [hn, Int.floor_lt]
    rw [div_lt_iff h45]
    push_cast
    linarith
  have hmod : sliceOfAngle θ = k ↔ (n = k ∨ (k = 0 ∧ n = 8)) := by
    rw [sliceOfAngle, htr]
    constructor
    · intro h
      omega
    · intro h
      omega
  have hnk : ∀ m : ℤ, n = m ↔
      ((m : ℚ) ≤ (θ + 45 / 2) / 45 ∧ (θ + 45 / 2) / 45 < (m : ℚ) + 1) := by
    intro m
    constructor
    · rintro rfl
      rw [hn]
      exact ⟨Int.floor_le _, Int.lt_floor_add_one _⟩
    · intro ⟨hlo, hhi⟩
      have h1' : m ≤ n := Int.le_floor.mpr hlo
      have h2' : n < m + 1 := by
        rw [hn, Int.floor_lt]
        push_cast
        exact hhi
      omega
  have hdiv : ∀ m : ℤ, ((m : ℚ) ≤ (θ + 45 / 2) / 45 ↔ 45 * m - 45 / 2 ≤ θ) := by
    intro m
    rw [le_div_iff h45]
    constructor <;> intro h <;> linarith
  have hdiv2 : ∀ m : ℤ, ((θ + 45 / 2) / 45 < m ↔ θ < 45 * m - 45 / 2) := by
    intro m
    rw [div_lt_iff h45]
    constructor <;> intro h <;> linarith
  rw [hmod]
  constructor
  · rintro (rfl | ⟨rfl, h8⟩)
    · left
      have := (hnk n).mp rfl
      refine ⟨(hdiv n).mp this.1, ?_⟩
      have := (hdiv2 (n + 1)).mp (by push_cast; exact_mod_cast this.2)
      push_cast at this ⊢
      linarith
    · right
      refine ⟨rfl, ?_⟩
      have := (hnk 8).mp h8
      have h' := (hdiv 8).mp this.1
      push_cast at h'
      linarith
  · rintro (⟨hlo, hhi⟩ | ⟨rfl, hhi⟩)
    · left
      refine (hnk k).mpr ⟨(hdiv k).mpr hlo, ?_⟩
      have h2 := (hdiv2 (k + 1)).mpr (by push_cast; linarith)
      push_cast at h2
      exact h2
    · right
      refine ⟨rfl, ?_⟩
      have := (hdiv 8).mpr (by push_cast; linarith)
      have h8le : (8 : ℤ) ≤ n := Int.le_floor.mpr (by exact_mod_cast this)
      omega

/-- `sliceOfAngle` is a remainder mod 8, hence always in `{0, ..., 7}`,
whatever the angle. -/
lemma sliceOfAngle_range (θ : ℚ) : 0 ≤ sliceOfAngle θ ∧ sliceOfAngle θ < 8 := by
  unfold sliceOfAngle
  constructor
  · exact Int.emod_nonneg _ (by norm_num)
  · exact Int.emod_lt_of_pos _ (by norm_num)

/-- C1. The overlay hit-test (`RadialMenu.on_cursor_moved` in
`juhradial-overlay.py`, `_on_motion` in `juhradial-gtk4.py`) selects no
slice (`-1`) exactly when the cursor distance from the menu center is
below the center-zone radius or above `MENU_RADIUS`; inside the annulus
it selects slice `k` exactly when the clockwise-from-north angle lies in
the contiguous 45-degree sector centered on `45 * k` degrees (for `k = 0`
the sector wraps through north: `[337.5, 360) ∪ [0, 22.5)`); and the
computed index always lies in `{-1, 0, ..., 7}`. -/
theorem hitTest_partitions_annulus (centerRadius distance θ : ℚ)
    (h0 : 0 ≤ θ) (h1 : θ < 360) :
    (-1 ≤ hitTestSlice centerRadius distance θ ∧
      hitTestSlice centerRadius distance θ ≤ 7) ∧
    (hitTestSlice centerRadius distance θ = -1 ↔
      (distance < centerRadius ∨ distance > MENU_RADIUS)) ∧
    (∀ k : ℤ, 0 ≤ k → k ≤ 7 →
      (hitTestSlice centerRadius distance θ = k ↔
        ((¬ (distance < centerRadius ∨ distance > MENU_RADIUS)) ∧
          ((45 * k - 45 / 2 ≤ θ ∧ θ < 45 * k + 45 / 2) ∨
            (k = 0 ∧ 360 - 45 / 2 ≤ θ))))) := by
  have hrange := sliceOfAngle_range θ
  by_cases hout : distance < centerRadius ∨ distance > MENU_RADIUS
  · rw [hitTestSlice, if_pos hout]
    refine ⟨by omega, by simp [hout], ?_⟩
    intro k hk0 hk7
    constructor
    · intro h
      omega
    · rintro ⟨habs, -⟩
      exact absurd hout habs
  · rw [hitTestSlice, if_neg hout]
    refine ⟨by omega, by constructor <;> intro h <;> [omega; exact absurd h hout], ?_⟩
    intro k hk0 hk7
    rw [sliceOfAngle_eq_iff θ h0 h1 k hk0 hk7]
    tauto

/-- Witness for `hitTest_partitions_annulus` at a concrete input:
distance 100 and angle 90 (due east) select slice 2. -/
theorem hitTest_partitions_annulus_witness :
    (0 : ℚ) ≤ 90 ∧ (90 : ℚ) < 360 ∧
      (-1 ≤ hitTestSlice 45 100 90 ∧ hitTestSlice 45 100 90 ≤ 7) := by
  refine ⟨by norm_num, by norm_num, (hitTest_partitions_annulus 45 100 90 (by norm_num) (by norm_num)).1⟩

/-! ## Cursor detection (`overlay_cursor.py`) -/

/-- The Python exception classes relevant to the cursor detectors.
`fileNotFoundError` is a subclass of `OSError`; `subprocessTimeout`
(`subprocess.TimeoutExpired`) is a subclass of `subprocess.SubprocessError`,
which is not an `OSError`. -/
inductive PyExc where
  | osError
  | fileNotFoundError
  | subprocessTimeout
  | valueError
  deriving DecidableEq, Repr

/-- Exception classes caught by `except (OSError, ValueError)` in
`get_cursor_position_hyprland` (first attempt). -/
def catchesOSValue : PyExc → Bool
  | .osError => true
  | .fileNotFoundError => true
  | .subprocessTimeout => false
  | .valueError => true

/-- Exception classes caught by
`except (FileNotFoundError, subprocess.SubprocessError, ValueError)` in the
`hyprctl` fallback and in `get_cursor_position_gnome`. -/
def catchesFnfSubprocValue : PyExc → Bool
  | .osError => false
  | .fileNotFoundError => true
  | .subprocessTimeout => true
  | .valueError => true

/-- Python `try: body / except (classes): pass`-style handling producing a
fallback value: an exception raised by the body is swallowed when its class
is among the handled ones and propagates otherwise. -/
def pyTry (body : Except PyExc α) (handled : PyExc → Bool) (fallback : α) :
    Except PyExc α :=
  match body with
  | .ok a => .ok a
  | .error e => if handled e then .ok fallback else .error e

/-- Outcome of the Hyprland IPC socket exchange (`_hyprland_ipc`).
`recv` timeouts are handled inside `_hyprland_ipc` itself (the read loop
breaks), so a successful exchange always yields a response string; a
connect failure or timeout raises `OSError`, and an undecodable response
raises `UnicodeDecodeError`, a subclass of `ValueError`. -/
inductive IpcOutcome where
  | ok (response : String)
  | connRefused
  | connTimeout
  | decodeError
  deriving DecidableEq, Repr

/-- Outcome of a `subprocess.run` call: normal completion with an exit code
and captured stdout, a missing executable (`FileNotFoundError`), or a
timeout (`subprocess.TimeoutExpired`). -/
inductive SubprocOutcome where
  | completed (returncode : ℤ) (stdout : String)
  | toolMissing
  | timedOut
  deriving DecidableEq, Repr

/-- Python `str.strip()`: drop whitespace from both ends (structural, so
concrete instances compute by `rfl`). -/
def pyStrip (s : String) : String :=
  ⟨((s.data.dropWhile Char.isWhitespace).reverse.dropWhile Char.isWhitespace).reverse⟩

/-- Digit-string value (the numeric part of a Python `int(str)` parse). -/
def digitsVal (cs : List Char) : ℕ :=
  cs.foldl (fun a c => 10 * a + (c.toNat - 48)) 0

/-- Parse a non-empty run of decimal digits. -/
def parseDigits (cs : List Char) : Option ℕ :=
  if cs ≠ [] ∧ cs.all (·.isDigit) then some (digitsVal cs) else none

/-- Model of Python `int(str)`: strip surrounding whitespace, optional sign,
then decimal digits; anything else raises `ValueError` (modelled as `none`). -/
def pyParseInt (s : String) : Option ℤ :=
  match (pyStrip s).data with
  | '+' :: rest => (parseDigits rest).map (fun n => (n : ℤ))
  | '-' :: rest => (parseDigits rest).map (fun n => -(n : ℤ))
  | cs => (parseDigits cs).map (fun n => (n : ℤ))

/-- Python `int(str)` as an exception-raising computation. -/
def pyIntE (s : String) : Except PyExc ℤ :=
  match pyParseInt s with
  | some n => .ok n
  | none => .error .valueError

/-- The shared `(int(parts[0].strip()), int(parts[1].strip()))` step of the
cursor-position parsers. -/
def parsePairE (p0 p1 : String) : Except PyExc (Option (ℤ × ℤ)) :=
  match pyIntE (pyStrip p0) with
  | .error e => .error e
  | .ok a =>
    match pyIntE (pyStrip p1) with
    | .error e => .error e
    | .ok b => .ok (some (a, b))

/-- The `try` body of the first (IPC socket) attempt of
`get_cursor_position_hyprland`: exchange over the socket, split the
response on a comma and parse both coordinates; fewer than two parts
means no `return`, i.e. fall through (`none`). -/
def hyprlandSocketAttempt (ipc : IpcOutcome) : Except PyExc (Option (ℤ × ℤ)) :=
  match ipc with
  | .connRefused => .error .osError
  | .connTimeout => .error .osError
  | .decodeError => .error .valueError
  | .ok response =>
    match response.splitOn "," with
    | p0 :: p1 :: _ => parsePairE p0 p1
    | _ => .ok none

/-- The `try` body of the `hyprctl cursorpos` subprocess fallback of
`get_cursor_position_hyprland`. -/
def hyprctlAttempt (sub : SubprocOutcome) : Except PyExc (Option (ℤ × ℤ)) :=
  match sub with
  | .toolMissing => .error .fileNotFoundError
  | .timedOut => .error .subprocessTimeout
  | .completed rc out =>
    if rc = 0 then
      match (pyStrip out).splitOn "," with
      | p0 :: p1 :: _ => parsePairE p0 p1
      | _ => .ok none
    else .ok none

/-- `get_cursor_position_hyprland` (`overlay_cursor.py`): IPC socket attempt
with `except (OSError, ValueError): pass`, then the `hyprctl` subprocess
fallback with `except (FileNotFoundError, subprocess.SubprocessError,
ValueError): pass`, then `None`. -/
def get_cursor_position_hyprland (ipc : IpcOutcome) (sub : SubprocOutcome) :
    Except PyExc (Option (ℤ × ℤ)) :=
  match pyTry (hyprlandSocketAttempt ipc) catchesOSValue none with
  | .error e => .error e
  | .ok (some p) => .ok (some p)
  | .ok none => pyTry (hyprctlAttempt sub) catchesFnfSubprocValue none

/-- Strip the characters `(` and `)` from both ends of a string
(Python `str.strip("()")`). -/
def pyStripParens (s : String) : String :=
  let p : Char → Bool := fun c => c = '(' || c = ')'
  ⟨((s.data.dropWhile p).reverse.dropWhile p).reverse⟩

/-- The `try` body of `get_cursor_position_gnome`: a `gdbus call` subprocess
whose stdout has the shape `"(1234, 567)\n"`. -/
def gnomeAttempt (sub : SubprocOutcome) : Except PyExc (Option (ℤ × ℤ)) :=
  match sub with
  | .toolMissing => .error .fileNotFoundError
  | .timedOut => .error .subprocessTimeout
  | .completed rc out =>
    if rc = 0 then
      match (pyStripParens (pyStrip out)).splitOn "," with
      | p0 :: p1 :: _ => parsePairE p0 p1
      | _ => .ok none
    else .ok none

/-- `get_cursor_position_gnome` (`overlay_cursor.py`). -/
def get_cursor_position_gnome (sub : SubprocOutcome) :
    Except PyExc (Option (ℤ × ℤ)) :=
  pyTry (gnomeAttempt sub) catchesFnfSubprocValue none

/-- A `pyTry` whose body only raises handled exception classes always
completes normally. -/
lemma pyTry_total (body : Except PyExc α) (handled : PyExc → Bool) (fb : α)
    (h : ∀ e, body = .error e → handled e = true) :
    ∃ a, pyTry body handled fb = .ok a := by
  cases body with
  | ok a => exact ⟨a, rfl⟩
  | error e => exact ⟨fb, by simp [pyTry, h e rfl]⟩

/-- `parsePairE` only ever raises `ValueError`. -/
lemma parsePairE_error (p0 p1 : String) (e : PyExc)
    (h : parsePairE p0 p1 = .error e) : e = .valueError := by
  unfold parsePairE pyIntE at h
  cases hp0 : pyParseInt (pyStrip p0) <;> cases hp1 : pyParseInt (pyStrip p1) <;>
    simp [hp0, hp1] at h <;> exact h.symm

/-- Every exception the Hyprland socket attempt can raise is caught by its
`except (OSError, ValueError)` handler. -/
lemma hyprlandSocketAttempt_handled (ipc : IpcOutcome) (e : PyExc)
    (h : hyprlandSocketAttempt ipc = .error e) : catchesOSValue e = true := by
  cases ipc with
  | connRefused => cases h; rfl
  | connTimeout => cases h; rfl
  | decodeError => cases h; rfl
  | ok response =>
    simp only [hyprlandSocketAttempt] at h
    rcases hs : response.splitOn "," with - | ⟨p0, - | ⟨p1, rest⟩⟩ <;> rw [hs] at h
    · cases h
    · cases h
    · rw [parsePairE_error p0 p1 e h]
      rfl

/-- Every exception the `hyprctl` fallback can raise is caught by its
`except (FileNotFoundError, subprocess.SubprocessError, ValueError)`
handler. -/
lemma hyprctlAttempt_handled (sub : SubprocOutcome) (e : PyExc)
    (h : hyprctlAttempt sub = .error e) : catchesFnfSubprocValue e = true := by
  cases sub with
  | toolMissing => cases h; rfl
  | timedOut => cases h; rfl
  | completed rc out =>
    simp only [hyprctlAttempt] at h
    by_cases hrc : rc = 0
    · rw [if_pos hrc] at h
      rcases hs : (pyStrip out).splitOn "," with - | ⟨p0, - | ⟨p1, rest⟩⟩ <;> rw [hs] at h
      · cases h
      · cases h
      · rw [parsePairE_error p0 p1 e h]
        rfl
    · rw [if_neg hrc] at h
      cases h

/-- Every exception the GNOME `gdbus` attempt can raise is caught by its
handler. -/
lemma gnomeAttempt_handled (sub : SubprocOutcome) (e : PyExc)
    (h : gnomeAttempt sub = .error e) : catchesFnfSubprocValue e = true := by
  cases sub with
  | toolMissing => cases h; rfl
  | timedOut => cases h; rfl
  | completed rc out =>
    simp only [gnomeAttempt] at h
    by_cases hrc : rc = 0
    · rw [if_pos hrc] at h
      rcases hs : (pyStripParens (pyStrip out)).splitOn "," with - | ⟨p0, - | ⟨p1, rest⟩⟩ <;>
        rw [hs] at h
      · cases h
      · cases h
      · rw [parsePairE_error p0 p1 e h]
        rfl
    · rw [if_neg hrc] at h
      cases h

/-- C3. For every IPC/subprocess outcome (connection refused, timeout,
non-zero exit, unparsable output, missing tool), the per-compositor cursor
detectors `get_cursor_position_hyprland` and `get_cursor_position_gnome`
complete normally — returning a pair of integers or `None` — and never
propagate an exception to their caller. -/
theorem cursor_detectors_never_raise (ipc : IpcOutcome) (sub subG : SubprocOutcome) :
    (∃ r : Option (ℤ × ℤ), get_cursor_position_hyprland ipc sub = .ok r) ∧
    (∃ r : Option (ℤ × ℤ), get_cursor_position_gnome subG = .ok r) := by
  constructor
  · unfold get_cursor_position_hyprland
    obtain ⟨a, ha⟩ := pyTry_total (hyprlandSocketAttempt ipc) catchesOSValue none
      (hyprlandSocketAttempt_handled ipc)
    rw [ha]
    cases a with
    | some p => exact ⟨some p, rfl⟩
    | none =>
      exact pyTry_total (hyprctlAttempt sub) catchesFnfSubprocValue none
        (hyprctlAttempt_handled sub)
  · exact pyTry_total (gnomeAttempt subG) catchesFnfSubprocValue none
      (gnomeAttempt_handled subG)

/-- The environment and detector outcomes seen by the `get_cursor_pos`
dispatcher (`overlay_cursor.py`).  The three detector results stand for
the return values of `get_cursor_position_hyprland`,
`get_cursor_position_gnome` and `get_cursor_position_xwayland`;
`qtCursorPos` is what `QCursor.pos()` reports, and `screenSize` the
primary screen dimensions (used only by the spec-side model below). -/
structure CursorEnv where
  isHyprland : Bool
  isGnome : Bool
  hasXwayland : Bool
  hyprlandResult : Option (ℤ × ℤ)
  gnomeResult : Option (ℤ × ℤ)
  xwaylandResult : Option (ℤ × ℤ)
  qtCursorPos : ℤ × ℤ
  screenSize : ℤ × ℤ
  deriving DecidableEq, Repr

/-- `get_cursor_pos` (`overlay_cursor.py`): Hyprland IPC when
`IS_HYPRLAND`, the GNOME extension when `IS_GNOME`, XWayland when
`DISPLAY` is set — taking the first result that is not `None` — and
finally `QCursor.pos()`.  (A returned pair is a non-empty tuple, hence
always truthy, so `if pos:` is exactly `pos is not None`.) -/
def get_cursor_pos (env : CursorEnv) : ℤ × ℤ :=
  match (if env.isHyprland then env.hyprlandResult else none) with
  | some p => p
  | none =>
    match (if env.isGnome then env.gnomeResult else none) with
    | some p => p
    | none =>
      match (if env.hasXwayland then env.xwaylandResult else none) with
      | some p => p
      | none => env.qtCursorPos

/-- Modelled from the spec: the claimed behaviour of `get_cursor_pos`,
whose final fallback would be "a default screen-center guess for the
cursor position" instead of the `QCursor.pos()` query the code performs.
Stated only to be compared against `get_cursor_pos`. -/
def get_cursor_pos_claimed (env : CursorEnv) : ℤ × ℤ :=
  match (if env.isHyprland then env.hyprlandResult else none) with
  | some p => p
  | none =>
    match (if env.isGnome then env.gnomeResult else none) with
    | some p => p
    | none =>
      match (if env.hasXwayland then env.xwaylandResult else none) with
      | some p => p
      | none => (env.screenSize.1 / 2, env.screenSize.2 / 2)

/-- A concrete environment where every detector is unavailable: no
compositor flags, no X display. -/
def allFailEnv : CursorEnv :=
  { isHyprland := false, isGnome := false, hasXwayland := false,
    hyprlandResult := none, gnomeResult := none, xwaylandResult := none,
    qtCursorPos := (3, 4), screenSize := (1920, 1080) }

/-- C2 counterexample.  When every detector fails, `get_cursor_pos` does
not return a screen-center guess: it returns the Qt cursor position
(`QCursor.pos()`), here `(3, 4)` rather than the screen center
`(960, 540)` the claim predicts. -/
theorem getCursorPos_no_screen_center_guess :
    get_cursor_pos allFailEnv = (3, 4) ∧
    get_cursor_pos_claimed allFailEnv = (960, 540) ∧
    get_cursor_pos allFailEnv ≠ get_cursor_pos_claimed allFailEnv := by
  refine ⟨rfl, by decide, by decide⟩

/-- The detector chain in the order `get_cursor_pos` consults it, each
entry gated by its availability flag. -/
def detectorChain (env : CursorEnv) : List (Option (ℤ × ℤ)) :=
  [if env.isHyprland then env.hyprlandResult else none,
   if env.isGnome then env.gnomeResult else none,
   if env.hasXwayland then env.xwaylandResult else none]

/-- C2 amended.  `get_cursor_pos` tries the detectors as a fallback chain
in order — Hyprland IPC when `IS_HYPRLAND`, the GNOME extension when
`IS_GNOME`, then XWayland when `DISPLAY` is set — returning the first
non-`None` result; when every one of them fails or is unavailable it
falls back to the Qt cursor position (`QCursor.pos()`) — not to a
screen-center guess. -/
theorem getCursorPos_fallback_chain (env : CursorEnv) :
    get_cursor_pos env = ((detectorChain env).findSome? id).getD env.qtCursorPos := by
  rcases env with ⟨hy, gn, xw, hr, gr, xr, qt, ss⟩
  cases hy <;> cases gn <;> cases xw <;> cases hr <;> cases gr <;> cases xr <;>
    simp [get_cursor_pos, detectorChain, List.findSome?]

/-! ## Configuration manager (`settings_config.py`) -/

/-- JSON values as Python's `json` module produces them (`dict` insertion
order is preserved, so objects are association lists). -/
inductive Json where
  | null
  | bool (b : Bool)
  | num (q : ℚ)
  | str (s : String)
  | arr (elems : List Json)
  | obj (fields : List (String × Json))

/-- Python `dict` lookup on an association list (first binding wins; a
`dict` never holds duplicate keys, but the definition is total anyway). -/
def lookupJ : List (String × Json) → String → Option Json
  | [], _ => none
  | (k, v) :: rest, key => if k = key then some v else lookupJ rest key

/-- Python `dict` assignment `base[key] = v`: replace the binding in place
when the key exists, append it otherwise. -/
def objSet : List (String × Json) → String → Json → List (String × Json)
  | [], key, v => [(key, v)]
  | (k, w) :: rest, key, v =>
    if k = key then (k, v) :: rest else (k, w) :: objSet rest key v

/-- `ConfigManager._deep_update(base, updates)`: for each binding of
`updates`, recurse when both sides hold a `dict` at that key, otherwise
overwrite the binding in `base`. -/
def deepUpdate : List (String × Json) → List (String × Json) → List (String × Json)
  | base, [] => base
  | base, (key, Json.obj uf) :: rest =>
    let base' :=
      match lookupJ base key with
      | some (.obj bf) => objSet base key (.obj (deepUpdate bf uf))
      | _ => objSet base key (.obj uf)
    deepUpdate base' rest
  | base, (key, v) :: rest => deepUpdate (objSet base key v) rest
termination_by base upd => sizeOf upd

/-- `ConfigManager.DEFAULT_CONFIG` (`settings_config.py`). -/
def DEFAULT_CONFIG : List (String × Json) :=
  [("haptics", .obj
      [("enabled", .bool true),
       ("default_pattern", .str "subtle_collision"),
       ("per_event", .obj
          [("menu_appear", .str "damp_state_change"),
           ("slice_change", .str "subtle_collision"),
           ("confirm", .str "sharp_state_change"),
           ("invalid", .str "angry_alert")]),
       ("debounce_ms", .num 20),
       ("slice_debounce_ms", .num 20),
       ("reentry_debounce_ms", .num 50)]),
   ("language", .str "system"),
   ("theme", .str "catppuccin-mocha"),
   ("blur_enabled", .bool true),
   ("pointer", .obj [("speed", .num 10), ("acceleration", .bool true)]),
   ("scroll", .obj
      [("natural", .bool false),
       ("smooth", .bool true),
       ("smartshift", .bool true),
       ("smartshift_threshold", .num 50)]),
   ("app", .obj [("start_at_login", .bool true), ("show_tray_icon", .bool true)]),
   ("radial_menu", .obj
      [("slices", .arr
          [.obj [("label", .str "Play/Pause"), ("action_id", .str "play_pause"),
                 ("type", .str "exec"), ("command", .str "playerctl play-pause"),
                 ("color", .str "green"), ("icon", .str "media-playback-start-symbolic")],
           .obj [("label", .str "New Note"), ("action_id", .str "new_note"),
                 ("type", .str "exec"), ("command", .str "kwrite"),
                 ("color", .str "yellow"), ("icon", .str "document-new-symbolic")],
           .obj [("label", .str "Lock"), ("action_id", .str "lock"),
                 ("type", .str "exec"), ("command", .str "loginctl lock-session"),
                 ("color", .str "red"), ("icon", .str "system-lock-screen-symbolic")],
           .obj [("label", .str "Settings"), ("action_id", .str "settings"),
                 ("type", .str "settings"), ("command", .str ""),
                 ("color", .str "mauve"), ("icon", .str "emblem-system-symbolic")],
           .obj [("label", .str "Screenshot"), ("action_id", .str "screenshot"),
                 ("type", .str "exec"), ("command", .str "spectacle"),
                 ("color", .str "blue"), ("icon", .str "camera-photo-symbolic")],
           .obj [("label", .str "Emoji"), ("action_id", .str "emoji"),
                 ("type", .str "emoji"), ("command", .str ""),
                 ("color", .str "pink"), ("icon", .str "face-smile-symbolic")],
           .obj [("label", .str "Files"), ("action_id", .str "files"),
                 ("type", .str "exec"), ("command", .str "dolphin"),
                 ("color", .str "sapphire"), ("icon", .str "folder-symbolic")],
           .obj [("label", .str "AI"), ("action_id", .str "ai"),
                 ("type", .str "submenu"), ("command", .str ""),
                 ("color", .str "teal"), ("icon", .str "applications-science-symbolic")]]),
       ("easy_switch_shortcuts", .bool false)])]

/-- The state of `~/.config/juhradial/config.json` as `_load` observes it:
missing, unreadable/unparsable (any exception while opening or parsing,
including a non-`dict` top level, which makes `_deep_update` raise
`AttributeError`), or successfully parsed JSON. -/
inductive ConfigFileState where
  | absent
  | unreadable
  | parsed (doc : Json)

/-- `ConfigManager._load`: deep-merge the parsed document over
`DEFAULT_CONFIG`; on a missing file or any load error, return a copy of
`DEFAULT_CONFIG`. -/
def ConfigManager_load : ConfigFileState → Json
  | .parsed (.obj fields) => .obj (deepUpdate DEFAULT_CONFIG fields)
  | .parsed _ => .obj DEFAULT_CONFIG
  | .absent => .obj DEFAULT_CONFIG
  | .unreadable => .obj DEFAULT_CONFIG

/-- `ConfigManager.get(*keys)`: walk the nested dicts, returning the
default (`None`) as soon as a level is not a dict or lacks the key. -/
def configGet : Json → List String → Option Json
  | value, [] => some value
  | .obj fields, key :: rest =>
    match lookupJ fields key with
    | some v => configGet v rest
    | none => none
  | _, _ :: _ => none

/-- The walk-and-assign of `ConfigManager.set` on a non-empty key path.
`error` is a Python `TypeError`: some existing intermediate value on the
path does not support the `in` test or item assignment.  When the walk
raises, no assignment has happened yet (intermediate dicts are only
created below a key that was absent, and from there on every level is a
fresh dict), so the config is left unchanged. -/
def setPathE : Json → List String → Json → Except Unit Json
  | c, [], _ => .ok c
  | .obj fields, [key], v => .ok (.obj (objSet fields key v))
  | _, [_], _ => .error ()
  | .obj fields, key :: rest, v =>
    (match lookupJ fields key with
     | none =>
       match setPathE (.obj []) rest v with
       | .ok sub => .ok (.obj (objSet fields key sub))
       | .error e => .error e
     | some child =>
       match setPathE child rest v with
       | .ok sub => .ok (.obj (objSet fields key sub))
       | .error e => .error e)
  | _, _ :: _ :: _, _ => .error ()

/-- `ConfigManager.set(*keys_and_value)`: with fewer than two arguments
(an empty key path) it returns leaving the config unchanged; otherwise it
creates intermediate dicts as needed and assigns the value at the path. -/
def configSet (c : Json) (keys : List String) (v : Json) : Except Unit Json :=
  match keys with
  | [] => .ok c
  | _ :: _ => setPathE c keys v

/-- Looking up the key just assigned returns the assigned value. -/
lemma lookupJ_objSet_self (fields : List (String × Json)) (key : String) (v : Json) :
    lookupJ (objSet fields key v) key = some v := by
  induction fields with
  | nil => simp [objSet, lookupJ]
  | cons kv rest ih =>
    obtain ⟨k, w⟩ := kv
    by_cases h : k = key
    · simp [objSet, lookupJ, h]
    · simp [objSet, lookupJ, h, ih]

/-- Assignment at one key leaves lookups at other keys unchanged. -/
lemma lookupJ_objSet_ne (fields : List (String × Json)) (key k' : String) (v : Json)
    (h : key ≠ k') : lookupJ (objSet fields key v) k' = lookupJ fields k' := by
  induction fields with
  | nil => simp [objSet, lookupJ, h]
  | cons kv rest ih =>
    obtain ⟨k, w⟩ := kv
    by_cases hk : k = key
    · subst hk
      simp [objSet, lookupJ, h]
    · simp [objSet, lookupJ, hk, ih]

/-- A successful `set` walk makes `get` on the same path return the
assigned value. -/
lemma setPathE_get (keys : List String) :
    ∀ (c c' v : Json), keys ≠ [] → setPathE c keys v = .ok c' →
      configGet c' keys = some v := by
  induction keys with
  | nil => intro c c' v h; exact absurd rfl h
  | cons key rest ih =>
    intro c c' v _ hset
    cases rest with
    | nil =>
      cases c with
      | obj fields =>
        simp only [setPathE] at hset
        cases hset
        simp [configGet, lookupJ_objSet_self]
      | null => exact absurd hset (by simp [setPathE])
      | bool b => exact absurd hset (by simp [setPathE])
      | num q => exact absurd hset (by simp [setPathE])
      | str s => exact absurd hset (by simp [setPathE])
      | arr elems => exact absurd hset (by simp [setPathE])
    | cons key2 rest2 =>
      cases c with
      | obj fields =>
        simp only [setPathE] at hset
        cases hlk : lookupJ fields key with
        | none =>
          simp only [hlk] at hset
          cases hsub : setPathE (.obj []) (key2 :: rest2) v with
          | ok sub =>
            simp only [hsub] at hset
            cases hset
            simp only [configGet, lookupJ_objSet_self]
            exact ih _ _ _ (by simp) hsub
          | error e =>
            simp only [hsub] at hset
            cases hset
        | some child =>
          simp only [hlk] at hset
          cases hsub : setPathE child (key2 :: rest2) v with
          | ok sub =>
            simp only [hsub] at hset
            cases hset
            simp only [configGet, lookupJ_objSet_self]
            exact ih _ _ _ (by simp) hsub
          | error e =>
            simp only [hsub] at hset
            cases hset
      | null => exact absurd hset (by simp [setPathE])
      | bool b => exact absurd hset (by simp [setPathE])
      | num q => exact absurd hset (by simp [setPathE])
      | str s => exact absurd hset (by simp [setPathE])
      | arr elems => exact absurd hset (by simp [setPathE])

/-- C5 counterexample.  On the config state `{"a": 5}` — reachable, since
loaded values may replace dict subtrees wholesale and defaults themselves
hold non-dict leaves — `set("a", "b", 7)` raises `TypeError` (the walk
reaches the non-dict value `5`), the config is left unchanged, and
`get("a", "b")` returns the default `None`, not the assigned value. -/
theorem set_get_roundtrip_counterexample :
    configSet (.obj [("a", .num 5)]) ["a", "b"] (.num 7) = .error () ∧
    configGet (.obj [("a", .num 5)]) ["a", "b"] = none ∧
    configGet (.obj [("a", .num 5)]) ["a", "b"] ≠ some (.num 7) := by
  refine ⟨rfl, rfl, by simp [configGet, lookupJ]⟩

/-- C5 amended.  `set` with fewer than two arguments leaves the config
unchanged; and on every non-empty key path on which `set` completes
without raising (that is, every existing intermediate value on the path is
a dict — intermediate dicts are created as needed below absent keys),
`get` on the same path returns exactly the value just assigned.  When some
existing intermediate value is not a dict, `set` raises `TypeError` and
the config is unchanged. -/
theorem set_get_roundtrip (c : Json) (v : Json) :
    configSet c [] v = .ok c ∧
    (∀ (keys : List String) (c' : Json), keys ≠ [] →
      configSet c keys v = .ok c' → configGet c' keys = some v) := by
  refine ⟨rfl, ?_⟩
  intro keys c' hne hset
  cases keys with
  | nil => exact absurd rfl hne
  | cons key rest => exact setPathE_get (key :: rest) c c' v hne hset

/-- Witness for `set_get_roundtrip`: on the empty config,
`set("x", 1)` succeeds and `get("x")` returns `1`. -/
theorem set_get_roundtrip_witness :
    configSet (.obj []) ["x"] (.num 1) = .ok (.obj [("x", .num 1)]) ∧
    configGet (.obj [("x", .num 1)]) ["x"] = some (.num 1) :=
  ⟨rfl, (set_get_roundtrip (.obj []) (.num 1)).2 ["x"] (.obj [("x", .num 1)])
    (by simp) rfl⟩

/-- The values bound to key `k` by the bindings of an object, in order. -/
def valuesForJ (fields : List (String × Json)) (k : String) : List Json :=
  (fields.filter (fun kv => kv.1 = k)).map Prod.snd

/-- The effect of one `_deep_update` binding `k ↦ v` on the value the base
currently holds at `k`. -/
def mergeStep (cur : Option Json) (v : Json) : Option Json :=
  match v with
  | .obj uf =>
    match cur with
    | some (.obj bf) => some (.obj (deepUpdate bf uf))
    | _ => some (.obj uf)
  | _ => some v

/-- What `deepUpdate` leaves at key `k`: the fold of every update binding
for `k`, in order, over the base's binding. -/
lemma lookupJ_deepUpdate (lf : List (String × Json)) :
    ∀ (df : List (String × Json)) (k : String),
      lookupJ (deepUpdate df lf) k =
        (valuesForJ lf k).foldl mergeStep (lookupJ df k) := by
  induction lf with
  | nil => intro df k; simp [deepUpdate, valuesForJ]
  | cons kv rest ih =>
    intro df k
    obtain ⟨key, v⟩ := kv
    by_cases hk : key = k
    · subst hk
      have hstep : ∀ df', deepUpdate df' ((key, v) :: rest) = deepUpdate
          (match v with
           | .obj uf =>
             match lookupJ df' key with
             | some (.obj bf) => objSet df' key (.obj (deepUpdate bf uf))
             | _ => objSet df' key (.obj uf)
           | _ => objSet df' key v) rest := by
        intro df'
        cases v <;> simp [deepUpdate]
      rw [hstep df, ih]
      have hvals : valuesForJ ((key, v) :: rest) key = v :: valuesForJ rest key := by
        simp [valuesForJ]
      rw [hvals, List.foldl_cons]
      congr 1
      cases v with
      | obj uf =>
        cases hlk : lookupJ df key with
        | none => simp [mergeStep, hlk, lookupJ_objSet_self]
        | some w =>
          cases w <;> simp [mergeStep, hlk, lookupJ_objSet_self]
      | null => simp [mergeStep, lookupJ_objSet_self]
      | bool b => simp [mergeStep, lookupJ_objSet_self]
      | num q => simp [mergeStep, lookupJ_objSet_self]
      | str s => simp [mergeStep, lookupJ_objSet_self]
      | arr elems => simp [mergeStep, lookupJ_objSet_self]
    · have hstep : ∀ df', deepUpdate df' ((key, v) :: rest) = deepUpdate
          (match v with
           | .obj uf =>
             match lookupJ df' key with
             | some (.obj bf) => objSet df' key (.obj (deepUpdate bf uf))
             | _ => objSet df' key (.obj uf)
           | _ => objSet df' key v) rest := by
        intro df'
        cases v <;> simp [deepUpdate]
      rw [hstep df, ih]
      have hvals : valuesForJ ((key, v) :: rest) k = valuesForJ rest k := by
        simp [valuesForJ, hk]
      rw [hvals]
      congr 1
      cases v with
      | obj uf =>
        cases hlk : lookupJ df key with
        | none => simp [lookupJ_objSet_ne _ _ _ _ hk]
        | some w => cases w <;> simp [lookupJ_objSet_ne _ _ _ _ hk]
      | null => simp [lookupJ_objSet_ne _ _ _ _ hk]
      | bool b => simp [lookupJ_objSet_ne _ _ _ _ hk]
      | num q => simp [lookupJ_objSet_ne _ _ _ _ hk]
      | str s => simp [lookupJ_objSet_ne _ _ _ _ hk]
      | arr elems => simp [lookupJ_objSet_ne _ _ _ _ hk]

/-- `mergeStep` always yields a value. -/
lemma mergeStep_isSome (cur : Option Json) (v : Json) : (mergeStep cur v).isSome := by
  cases v with
  | obj uf =>
    cases cur with
    | none => simp [mergeStep]
    | some w => cases w <;> simp [mergeStep]
  | null => simp [mergeStep]
  | bool b => simp [mergeStep]
  | num q => simp [mergeStep]
  | str s => simp [mergeStep]
  | arr elems => simp [mergeStep]

/-- A fold of `mergeStep` over a present binding stays present. -/
lemma foldl_mergeStep_isSome (vs : List Json) :
    ∀ cur : Option Json, cur.isSome → (vs.foldl mergeStep cur).isSome := by
  induction vs with
  | nil => intro cur h; simpa using h
  | cons v rest ih =>
    intro cur _
    rw [List.foldl_cons]
    exact ih (mergeStep cur v) (mergeStep_isSome cur v)

/-- "Every binding the loaded document places on a proper ancestor of the
path is a dict": the guard under which a deep merge cannot discard the
suffix of a default path. -/
def goodAncestorsB : List (String × Json) → List String → Bool
  | _, [] => true
  | _, [_] => true
  | lf, k :: r :: rs =>
    lf.all (fun kv => kv.1 != k ||
      (match kv.2 with
       | .obj sub => goodAncestorsB sub (r :: rs)
       | _ => false))

/-- Unpack `goodAncestorsB` on a path of length at least two: every value
the loaded object binds to the head key is itself an object that is good
for the tail. -/
lemma goodAncestorsB_values (lf : List (String × Json)) (k r : String) (rs : List String)
    (h : goodAncestorsB lf (k :: r :: rs) = true) :
    ∀ v ∈ valuesForJ lf k, ∃ sub, v = Json.obj sub ∧ goodAncestorsB sub (r :: rs) = true := by
  intro v hv
  simp only [valuesForJ, List.mem_map, List.mem_filter] at hv
  obtain ⟨⟨key, w⟩, ⟨hmem, hkey⟩, hsnd⟩ := hv
  simp only [decide_eq_true_eq] at hkey
  rw [goodAncestorsB, List.all_eq_true] at h
  have hp := h _ hmem
  rw [Bool.or_eq_true] at hp
  rcases hp with hne | hmatch
  · simp [hkey] at hne
  · cases w with
    | obj sub => exact ⟨sub, hsnd ▸ rfl, hmatch⟩
    | null => cases hmatch
    | bool b => cases hmatch
    | num q => cases hmatch
    | str s => cases hmatch
    | arr elems => cases hmatch

/-- Auxiliary fold argument for path preservation: starting from a dict
binding whose path survives, merging any run of good dict values keeps the
path alive. -/
lemma foldl_mergeStep_path (rest : List String)
    (ihp : ∀ (df lf : List (String × Json)),
      configGet (.obj df) rest ≠ none → goodAncestorsB lf rest = true →
      configGet (.obj (deepUpdate df lf)) rest ≠ none)
    (vs : List Json) :
    ∀ (bf : List (String × Json)),
      configGet (.obj bf) rest ≠ none →
      (∀ v ∈ vs, ∃ sub, v = Json.obj sub ∧ goodAncestorsB sub rest = true) →
      ∃ w, vs.foldl mergeStep (some (.obj bf)) = some w ∧ configGet w rest ≠ none := by
  induction vs with
  | nil =>
    intro bf hbf _
    exact ⟨.obj bf, rfl, hbf⟩
  | cons v vsR ih =>
    intro bf hbf hgood
    obtain ⟨sub, rfl, hsub⟩ := hgood v (by simp)
    rw [List.foldl_cons]
    have hstep : mergeStep (some (.obj bf)) (.obj sub) = some (.obj (deepUpdate bf sub)) := by
      simp [mergeStep]
    rw [hstep]
    exact ih (deepUpdate bf sub) (ihp bf sub hbf hsub)
      (fun v hv => hgood v (by simp [hv]))

/-- Deep-merging a loaded document that binds only dicts along the proper
ancestors of a path cannot remove that path from the defaults. -/
lemma deepUpdate_preserves_path (p : List String) :
    ∀ (df lf : List (String × Json)),
      configGet (.obj df) p ≠ none → goodAncestorsB lf p = true →
      configGet (.obj (deepUpdate df lf)) p ≠ none := by
  induction p with
  | nil =>
    intro df lf _ _
    simp [configGet]
  | cons k rest ih =>
    intro df lf hdf hgood
    have hdv : ∃ dv, lookupJ df k = some dv ∧ configGet dv rest ≠ none := by
      by_contra hcon
      apply hdf
      simp only [configGet]
      cases hlk : lookupJ df k with
      | none => rfl
      | some dv =>
        push_neg at hcon
        have := hcon dv hlk
        simp only [ne_eq, not_not] at this
        exact this
    obtain ⟨dv, hlk, hpath⟩ := hdv
    cases rest with
    | nil =>
      have hsome := foldl_mergeStep_isSome (valuesForJ lf k) (some dv) (by simp)
      rw [Option.isSome_iff_exists] at hsome
      obtain ⟨w, hw⟩ := hsome
      simp only [configGet, lookupJ_deepUpdate, hlk, hw]
      simp
    | cons r rs =>
      have hdvobj : ∃ dsub, dv = Json.obj dsub := by
        cases dv with
        | obj dsub => exact ⟨dsub, rfl⟩
        | null => simp [configGet] at hpath
        | bool b => simp [configGet] at hpath
        | num q => simp [configGet] at hpath
        | str s => simp [configGet] at hpath
        | arr elems => simp [configGet] at hpath
      obtain ⟨dsub, rfl⟩ := hdvobj
      obtain ⟨w, hw, hwpath⟩ := foldl_mergeStep_path (r :: rs) ih (valuesForJ lf k) dsub
        hpath (goodAncestorsB_values lf k r rs hgood)
      simp only [configGet, lookupJ_deepUpdate, hlk, hw]
      exact hwpath

/-- "The loaded document binds exactly one value along this path, namely
`v` at its end, through objects": the hypothesis under which a loaded
value is guaranteed to win the merge. -/
def soleValueAt : List (String × Json) → List String → Json → Prop
  | _, [], _ => False
  | lf, [k], v => valuesForJ lf k = [v]
  | lf, k :: r :: rs, v => ∃ sub, valuesForJ lf k = [Json.obj sub] ∧ soleValueAt sub (r :: rs) v

/-- A key whose filtered value list is a singleton looks up to that value. -/
lemma lookupJ_of_valuesForJ_singleton (lf : List (String × Json)) (k : String) (x : Json)
    (h : valuesForJ lf k = [x]) : lookupJ lf k = some x := by
  induction lf with
  | nil => simp [valuesForJ] at h
  | cons kv rest ih =>
    obtain ⟨key, w⟩ := kv
    by_cases hk : key = k
    · subst hk
      simp only [valuesForJ, List.filter_cons, decide_True, if_true, List.map_cons,
        List.cons.injEq] at h
      simp [lookupJ, h.1]
    · simp only [lookupJ, if_neg hk]
      apply ih
      simpa [valuesForJ, List.filter_cons, hk] using h

/-- Where `soleValueAt` holds with a non-object leaf, the loaded document
itself already `get`s that value. -/
lemma soleValueAt_configGet (p : List String) :
    ∀ (lf : List (String × Json)) (v : Json), soleValueAt lf p v →
      configGet (.obj lf) p = some v := by
  induction p with
  | nil => intro lf v h; cases h
  | cons k rest ih =>
    intro lf v h
    cases rest with
    | nil =>
      rw [soleValueAt] at h
      simp [configGet, lookupJ_of_valuesForJ_singleton lf k v h]
    | cons r rs =>
      rw [soleValueAt] at h
      obtain ⟨sub, hvals, hrec⟩ := h
      simp only [configGet, lookupJ_of_valuesForJ_singleton lf k _ hvals]
      exact ih sub v hrec

/-- A non-object value the loaded document solely binds at a path
survives the deep merge verbatim ("loaded values win on conflict"). -/
lemma deepUpdate_leaf_wins (p : List String) :
    ∀ (df lf : List (String × Json)) (v : Json),
      soleValueAt lf p v → (∀ uf, v ≠ Json.obj uf) →
      configGet (.obj (deepUpdate df lf)) p = some v := by
  induction p with
  | nil => intro df lf v h _; cases h
  | cons k rest ih =>
    intro df lf v h hnotobj
    cases rest with
    | nil =>
      rw [soleValueAt] at h
      have hstep : mergeStep (lookupJ df k) v = some v := by
        cases v with
        | obj uf => exact absurd rfl (hnotobj uf)
        | null => rfl
        | bool b => rfl
        | num q => rfl
        | str s => rfl
        | arr elems => rfl
      simp [configGet, lookupJ_deepUpdate, h, hstep]
    | cons r rs =>
      rw [soleValueAt] at h
      obtain ⟨sub, hvals, hrec⟩ := h
      simp only [configGet, lookupJ_deepUpdate, hvals, List.foldl_cons, List.foldl_nil]
      cases hlk : lookupJ df k with
      | none =>
        simp only [mergeStep]
        exact soleValueAt_configGet (r :: rs) sub v hrec
      | some w =>
        cases w with
        | obj bf =>
          simp only [mergeStep]
          exact ih bf sub v hrec hnotobj
        | null =>
          simp only [mergeStep]
          exact soleValueAt_configGet (r :: rs) sub v hrec
        | bool b =>
          simp only [mergeStep]
          exact soleValueAt_configGet (r :: rs) sub v hrec
        | num q =>
          simp only [mergeStep]
          exact soleValueAt_configGet (r :: rs) sub v hrec
        | str s =>
          simp only [mergeStep]
          exact soleValueAt_configGet (r :: rs) sub v hrec
        | arr elems =>
          simp only [mergeStep]
          exact soleValueAt_configGet (r :: rs) sub v hrec

/-- C4 counterexample.  The loaded object `{"haptics": 5}` parses fine,
yet the merged result of `_load` loses the key path
`haptics.enabled`, which `DEFAULT_CONFIG` has: `_deep_update` lets a
non-dict loaded value replace a whole default dict subtree, so not every
key path present in `DEFAULT_CONFIG` exists in the result. -/
theorem load_merge_drops_default_path :
    configGet (.obj DEFAULT_CONFIG) ["haptics", "enabled"] = some (.bool true) ∧
    configGet (ConfigManager_load (.parsed (.obj [("haptics", .num 5)])))
      ["haptics", "enabled"] = none := by
  constructor
  · rfl
  · show configGet (.obj (deepUpdate DEFAULT_CONFIG [("haptics", .num 5)]))
      ["haptics", "enabled"] = none
    rw [show deepUpdate DEFAULT_CONFIG [("haptics", .num 5)]
        = objSet DEFAULT_CONFIG "haptics" (.num 5) from by
      rw [deepUpdate, deepUpdate]
      intro uf h
      cases h]
    rfl

/-- C4 amended.  `ConfigManager._load` deep-merges the loaded JSON object
over `DEFAULT_CONFIG` with loaded values winning on conflict; every key
path present in `DEFAULT_CONFIG` exists in the result *provided* the
loaded document binds only dicts (or nothing) along the path's proper
ancestors — a non-dict loaded value replaces a default dict subtree
wholesale, discarding the default paths below it.  A non-dict value the
loaded document binds at a path appears verbatim in the result.  When the
file is absent or fails to parse (including a non-dict top level), the
result equals `DEFAULT_CONFIG`. -/
theorem load_merges_defaults :
    (ConfigManager_load .absent = .obj DEFAULT_CONFIG ∧
      ConfigManager_load .unreadable = .obj DEFAULT_CONFIG) ∧
    (∀ (lf : List (String × Json)) (p : List String),
      goodAncestorsB lf p = true →
      configGet (.obj DEFAULT_CONFIG) p ≠ none →
      configGet (ConfigManager_load (.parsed (.obj lf))) p ≠ none) ∧
    (∀ (lf : List (String × Json)) (p : List String) (v : Json),
      soleValueAt lf p v → (∀ uf, v ≠ Json.obj uf) →
      configGet (ConfigManager_load (.parsed (.obj lf))) p = some v) := by
  refine ⟨⟨rfl, rfl⟩, ?_, ?_⟩
  · intro lf p hgood hdef
    exact deepUpdate_preserves_path p DEFAULT_CONFIG lf hdef hgood
  · intro lf p v hsole hnotobj
    exact deepUpdate_leaf_wins p DEFAULT_CONFIG lf v hsole hnotobj

/-- Witness for `load_merges_defaults`: loading `{"language": "fr"}`
keeps the default path `haptics.enabled` and stores `"fr"` under
`language`. -/
theorem load_merges_defaults_witness :
    goodAncestorsB [("language", .str "fr")] ["haptics", "enabled"] = true ∧
    configGet (.obj DEFAULT_CONFIG) ["haptics", "enabled"] ≠ none ∧
    configGet (ConfigManager_load (.parsed (.obj [("language", .str "fr")])))
      ["haptics", "enabled"] ≠ none ∧
    configGet (ConfigManager_load (.parsed (.obj [("language", .str "fr")])))
      ["language"] = some (.str "fr") := by
  refine ⟨rfl, by simp [configGet, DEFAULT_CONFIG, lookupJ], ?_, ?_⟩
  · exact (load_merges_defaults).2.1 [("language", .str "fr")] ["haptics", "enabled"]
      rfl (by simp [configGet, DEFAULT_CONFIG, lookupJ])
  · exact (load_merges_defaults).2.2 [("language", .str "fr")] ["language"] (.str "fr")
      rfl (fun uf h => by cases h)

/-! ## Polling timers (`juhradial-overlay.py`, `cursor_grabber.py`) -/

/-- `RadialMenu.__init__`: `self.cursor_timer.setInterval(16)` — the
toggle-mode cursor polling timer, in milliseconds. -/
def cursorTimerIntervalMs : ℕ := 16

/-- `CursorGrabber.__init__` (`cursor_grabber.py`):
`GLib.timeout_add(10, self._check_activation)` — the grabber's periodic
activation-file polling, in milliseconds. -/
def grabberPollIntervalMs : ℕ := 10

/-- Every periodic polling timer the overlay processes create for cursor
tracking.  (The other `GLib.timeout_add` calls in the repository are
one-shot — their callbacks return `False` — or belong to the settings
dashboard, not to cursor tracking.) -/
def overlayPollingTimersMs : List ℕ := [cursorTimerIntervalMs, grabberPollIntervalMs]

/-- C6. Every periodic cursor-tracking polling timer the overlay creates
has an interval of at least 10 ms and at most 16 ms, and the toggle-mode
cursor polling timer of `RadialMenu` is configured with a 16 ms interval. -/
theorem polling_timer_intervals :
    (∀ t ∈ overlayPollingTimersMs, 10 ≤ t ∧ t ≤ 16) ∧
    cursorTimerIntervalMs = 16 := by
  constructor
  · intro t ht
    simp only [overlayPollingTimersMs, cursorTimerIntervalMs, grabberPollIntervalMs,
      List.mem_cons, List.not_mem_nil, or_false] at ht
    rcases ht with rfl | rfl <;> omega
  · rfl

/-- Witness for `polling_timer_intervals` at the toggle-mode cursor
timer. -/
theorem polling_timer_intervals_witness :
    cursorTimerIntervalMs ∈ overlayPollingTimersMs ∧
    10 ≤ cursorTimerIntervalMs ∧ cursorTimerIntervalMs ≤ 16 :=
  ⟨by simp [overlayPollingTimersMs],
   polling_timer_intervals.1 cursorTimerIntervalMs (by simp [overlayPollingTimersMs])⟩

/-! ## Submenu actions (`juhradial-overlay.py`, `overlay_actions.py`) -/

/-- A submenu item as `overlay_actions.py` builds them:
`(label, cmd_type, cmd, icon)`. -/
structure SubItem where
  label : String
  ctype : String
  command : String
  icon : String
  deriving DecidableEq, Repr

/-- Outcome of the `gdbus call ... SetHost` subprocess in
`_execute_subaction`: completion with an exit code, a
`subprocess.TimeoutExpired`, or any other exception. -/
inductive DbusCallOutcome where
  | completed (returncode : ℤ) (stderr : String)
  | timedOut
  | raised

/-- Observable effects of `RadialMenu._execute_subaction`. -/
structure SubactionResult where
  /-- The host index passed to the daemon `SetHost` D-Bus method, when
  that call was made. -/
  setHostCall : Option ℤ
  /-- Haptic events triggered via `self._trigger_haptic`. -/
  haptics : List String
  /-- Processes spawned with `subprocess.Popen`. -/
  spawned : List (List String)

/-- `RadialMenu._execute_subaction` (`juhradial-overlay.py`).
`shlexResult` stands for `shlex.split(cmd)` (which may raise
`ValueError`); `dbus` for the outcome of the `gdbus call ... SetHost`
subprocess. -/
def executeSubaction (item : SubItem) (shlexResult : Except Unit (List String))
    (dbus : DbusCallOutcome) : SubactionResult :=
  if item.ctype = "exec" then
    match shlexResult with
    | .ok args => { setHostCall := none, haptics := [], spawned := [args] }
    | .error _ => { setHostCall := none, haptics := [], spawned := [] }
  else if item.ctype = "url" then
    if item.command.startsWith "-" then
      { setHostCall := none, haptics := [], spawned := [] }
    else
      { setHostCall := none, haptics := [], spawned := [["xdg-open", item.command]] }
  else if item.ctype = "easy_switch" then
    match pyParseInt item.command with
    | none => { setHostCall := none, haptics := ["invalid"], spawned := [] }
    | some i =>
      if 0 ≤ i ∧ i ≤ 2 then
        match dbus with
        | .completed rc _ =>
          if rc = 0 then { setHostCall := some i, haptics := [], spawned := [] }
          else { setHostCall := some i, haptics := ["invalid"], spawned := [] }
        | .timedOut => { setHostCall := some i, haptics := ["invalid"], spawned := [] }
        | .raised => { setHostCall := some i, haptics := ["invalid"], spawned := [] }
      else { setHostCall := none, haptics := ["invalid"], spawned := [] }
  else { setHostCall := none, haptics := [], spawned := [] }

/-- C7. For a submenu item of type `easy_switch`, `_execute_subaction`
invokes the daemon `SetHost` method if and only if the item's command
string parses as an integer in `0..2`; when the string does not parse or
the integer is out of range, it triggers the `"invalid"` haptic event and
returns without any `SetHost` call. -/
theorem easy_switch_sethost_iff (item : SubItem)
    (shlexResult : Except Unit (List String)) (dbus : DbusCallOutcome)
    (hty : item.ctype = "easy_switch") :
    ((executeSubaction item shlexResult dbus).setHostCall ≠ none ↔
      ∃ i, pyParseInt item.command = some i ∧ 0 ≤ i ∧ i ≤ 2) ∧
    (∀ i, pyParseInt item.command = some i → 0 ≤ i → i ≤ 2 →
      (executeSubaction item shlexResult dbus).setHostCall = some i) ∧
    (pyParseInt item.command = none →
      (executeSubaction item shlexResult dbus).setHostCall = none ∧
      "invalid" ∈ (executeSubaction item shlexResult dbus).haptics) ∧
    (∀ i, pyParseInt item.command = some i → ¬ (0 ≤ i ∧ i ≤ 2) →
      (executeSubaction item shlexResult dbus).setHostCall = none ∧
      "invalid" ∈ (executeSubaction item shlexResult dbus).haptics) := by
  cases hp : pyParseInt item.command with
  | none =>
    have hr : executeSubaction item shlexResult dbus =
        { setHostCall := none, haptics := ["invalid"], spawned := [] } := by
      simp [executeSubaction, hty, hp]
    rw [hr]
    exact ⟨by simp, by simp, fun _ => ⟨rfl, by simp⟩, by simp⟩
  | some i =>
    by_cases hrange : 0 ≤ i ∧ i ≤ 2
    · have hr : ∃ hs, executeSubaction item shlexResult dbus =
          { setHostCall := some i, haptics := hs, spawned := [] } := by
        cases dbus with
        | completed rc stderr =>
          by_cases hrc : rc = 0
          · exact ⟨[], by simp [executeSubaction, hty, hp, hrange, hrc]⟩
          · exact ⟨["invalid"], by simp [executeSubaction, hty, hp, hrange, hrc]⟩
        | timedOut => exact ⟨["invalid"], by simp [executeSubaction, hty, hp, hrange]⟩
        | raised => exact ⟨["invalid"], by simp [executeSubaction, hty, hp, hrange]⟩
      obtain ⟨hs, hr⟩ := hr
      rw [hr]
      refine ⟨⟨fun _ => ⟨i, rfl, hrange⟩, fun _ => by simp⟩, ?_, ?_, ?_⟩
      · intro j hj h0 h2
        cases hj
        rfl
      · intro h
        exact Option.noConfusion h
      · intro j hj hn
        cases hj
        exact absurd hrange hn
    · have hr : executeSubaction item shlexResult dbus =
          { setHostCall := none, haptics := ["invalid"], spawned := [] } := by
        simp [executeSubaction, hty, hp, hrange]
      rw [hr]
      refine ⟨?_, ?_, ?_, ?_⟩
      · constructor
        · intro h
          exact absurd rfl h
        · rintro ⟨j, hj, hr2⟩
          cases hj
          exact absurd hr2 hrange
      · intro j hj h0 h2
        cases hj
        exact absurd ⟨h0, h2⟩ hrange
      · intro h
        exact Option.noConfusion h
      · intro j hj hn
        exact ⟨rfl, by simp⟩

/-- Witness for `easy_switch_sethost_iff`: the stock "Host 3" item whose
command is `"2"` makes the `SetHost` call with index 2. -/
theorem easy_switch_sethost_iff_witness :
    (SubItem.mk "Host 3" "easy_switch" "2" "host3").ctype = "easy_switch" ∧
    (executeSubaction (SubItem.mk "Host 3" "easy_switch" "2" "host3")
      (.ok []) (.completed 0 "")).setHostCall = some 2 := by
  refine ⟨rfl, ?_⟩
  refine (easy_switch_sethost_iff (SubItem.mk "Host 3" "easy_switch" "2" "host3")
    (.ok []) (.completed 0 "") rfl).2.1 2 ?_ (by norm_num) (by norm_num)
  rfl

/-! ## Monitors and menu placement (`overlay_cursor.py`, `juhradial-overlay.py`) -/

/-- A monitor as reported by Hyprland's `j/monitors` IPC: position,
raw pixel size, scale factor, focus flag. -/
structure RawMonitor where
  x : ℤ
  y : ℤ
  width : ℤ
  height : ℤ
  scale : ℚ
  focused : Bool
  name : String

/-- The dict `get_monitor_at_cursor` returns: logical (scaled, truncated)
size. -/
structure MonInfo where
  x : ℤ
  y : ℤ
  width : ℤ
  height : ℤ
  name : String
  deriving DecidableEq, Repr

/-- The containment test of `get_monitor_at_cursor`:
`mx <= cx < mx + mw and my <= cy < my + mh` with `mw, mh` the logical
(scale-divided) size. -/
def monContains (m : RawMonitor) (cx cy : ℤ) : Bool :=
  decide (m.x ≤ cx) && decide ((cx : ℚ) < m.x + m.width / m.scale) &&
  decide (m.y ≤ cy) && decide ((cy : ℚ) < m.y + m.height / m.scale)

/-- The dict built from a raw monitor: `int(mw)`, `int(mh)` truncate the
logical size. -/
def toMonInfo (m : RawMonitor) : MonInfo :=
  { x := m.x, y := m.y, width := pyTrunc (m.width / m.scale),
    height := pyTrunc (m.height / m.scale), name := m.name }

/-- `get_monitor_at_cursor` (`overlay_cursor.py`): first monitor whose
logical rectangle contains the cursor, else the first focused monitor,
else a `1920x1080` monitor at the origin. -/
def get_monitor_at_cursor (mons : List RawMonitor) (cx cy : ℤ) : MonInfo :=
  match mons.find? (fun m => monContains m cx cy) with
  | some m => toMonInfo m
  | none =>
    match mons.find? (fun m => m.focused) with
    | some m => toMonInfo m
    | none => { x := 0, y := 0, width := 1920, height := 1080, name := "fallback" }

/-- The clamping step of `RadialMenu.on_show` (`juhradial-overlay.py`):
with `half = WINDOW_SIZE // 2`, clamp the requested position into the
monitor when one was detected (`mon` is non-`None` exactly on Hyprland). -/
def onShowPosition (x y : ℤ) (mon : Option MonInfo) : ℤ × ℤ :=
  let half := WINDOW_SIZE / 2
  match mon with
  | some m => (max (m.x + half) (min x (m.x + m.width - half)),
               max (m.y + half) (min y (m.y + m.height - half)))
  | none => (x, y)

/-- C9. On Hyprland, for every requested show position and every detected
monitor at least `WINDOW_SIZE` on a side, `on_show` clamps the menu
center into `[mon.x + WINDOW_SIZE/2, mon.x + mon.width - WINDOW_SIZE/2]`
(and likewise vertically), so the `WINDOW_SIZE × WINDOW_SIZE` window —
moved to `center - WINDOW_SIZE/2` — lies entirely within the monitor; and
`get_monitor_at_cursor` returns the first monitor whose logical rectangle
contains the cursor whenever one exists, before any fallback. -/
theorem onShow_clamps_to_monitor :
    (∀ (x y : ℤ) (m : MonInfo), WINDOW_SIZE ≤ m.width → WINDOW_SIZE ≤ m.height →
      m.x + WINDOW_SIZE / 2 ≤ (onShowPosition x y (some m)).1 ∧
      (onShowPosition x y (some m)).1 ≤ m.x + m.width - WINDOW_SIZE / 2 ∧
      m.y + WINDOW_SIZE / 2 ≤ (onShowPosition x y (some m)).2 ∧
      (onShowPosition x y (some m)).2 ≤ m.y + m.height - WINDOW_SIZE / 2 ∧
      m.x ≤ (onShowPosition x y (some m)).1 - WINDOW_SIZE / 2 ∧
      (onShowPosition x y (some m)).1 - WINDOW_SIZE / 2 + WINDOW_SIZE ≤ m.x + m.width ∧
      m.y ≤ (onShowPosition x y (some m)).2 - WINDOW_SIZE / 2 ∧
      (onShowPosition x y (some m)).2 - WINDOW_SIZE / 2 + WINDOW_SIZE ≤ m.y + m.height) ∧
    (∀ (mons : List RawMonitor) (cx cy : ℤ),
      (∃ m ∈ mons, monContains m cx cy = true) →
      ∃ m, mons.find? (fun mm => monContains mm cx cy) = some m ∧
        get_monitor_at_cursor mons cx cy = toMonInfo m ∧
        monContains m cx cy = true) := by
  have hW : WINDOW_SIZE = 484 := rfl
  have hW2 : WINDOW_SIZE / 2 = 242 := rfl
  constructor
  · intro x y m hw hh
    simp only [onShowPosition, hW, hW2] at *
    omega
  · intro mons cx cy hex
    have hsome : (mons.find? (fun mm => monContains mm cx cy)).isSome := by
      rw [List.find?_isSome]
      obtain ⟨m, hm, hc⟩ := hex
      exact ⟨m, hm, hc⟩
    rw [Option.isSome_iff_exists] at hsome
    obtain ⟨m, hm⟩ := hsome
    have hpm := List.find?_some hm
    simp only at hpm
    exact ⟨m, hm, by simp [get_monitor_at_cursor, hm], hpm⟩

/-- Witness for `onShow_clamps_to_monitor`: a request far off a
`1920x1080` monitor at the origin is pulled back inside, and the single
containing monitor is found. -/
theorem onShow_clamps_to_monitor_witness :
    (WINDOW_SIZE ≤ (1920 : ℤ) ∧ WINDOW_SIZE ≤ (1080 : ℤ) ∧
      (MonInfo.mk 0 0 1920 1080 "DP-1").x + WINDOW_SIZE / 2 ≤
        (onShowPosition 5000 (-50) (some (MonInfo.mk 0 0 1920 1080 "DP-1"))).1) ∧
    (∃ m ∈ [RawMonitor.mk 0 0 1920 1080 1 true "DP-1"], monContains m 100 100 = true) := by
  constructor
  · refine ⟨by decide, by decide, ?_⟩
    exact ((onShow_clamps_to_monitor.1 5000 (-50) (MonInfo.mk 0 0 1920 1080 "DP-1")
      (by decide) (by decide)).1)
  · exact ⟨RawMonitor.mk 0 0 1920 1080 1 true "DP-1", by simp, by norm_num [monContains]⟩

/-! ## The RadialMenu event-handler state machine (`juhradial-overlay.py`) -/

/-- An entry of `overlay_actions.ACTIONS`:
`(label, cmd_type, cmd, color, icon, submenu)`. -/
structure ActionT where
  label : String
  ctype : String
  command : String
  color : String
  icon : String
  submenu : Option (List SubItem)
  deriving DecidableEq, Repr

/-- Python list indexing `l[i]`: negative indices wrap from the end;
out-of-range indexing raises `IndexError` (`none` here, turned into an
error by the handlers that perform it). -/
def pyIndexL (l : List ActionT) (i : ℤ) : Option ActionT :=
  if 0 ≤ i ∧ i < l.length then l.get? i.toNat
  else if 0 ≤ i + l.length ∧ i < 0 then l.get? (i + l.length).toNat
  else none

/-- Python truthiness of an `action[5]` submenu slot: `None` and the
empty list are falsy. -/
def pyTruthySub (o : Option (List SubItem)) : Bool :=
  match o with
  | none => false
  | some l => !l.isEmpty

/-- The mutable state of the `RadialMenu` widget relevant to the
handlers.  `show_time` is `None` before the first show
(`time.time()` is never falsy otherwise). -/
structure MenuState where
  highlighted_slice : ℤ
  submenu_active : Bool
  submenu_slice : ℤ
  highlighted_subitem : ℤ
  toggle_mode : Bool
  show_time : Option ℚ
  visible : Bool
  menu_center_x : ℤ
  menu_center_y : ℤ
  deriving DecidableEq, Repr

/-- What `_close_menu` executed, if anything. -/
inductive ExecTarget where
  | mainSlice (i : ℤ)
  | subItem (slice item : ℤ)
  deriving DecidableEq, Repr

/-- Result of `_close_menu`: the state after the handler, what it
executed, and the haptic events it fired. -/
structure CloseResult where
  state : MenuState
  executed : Option ExecTarget
  haptics : List String

/-- The state `_close_menu` always leaves behind: toggle mode off,
submenu state reset, window hidden, highlight untouched. -/
def resetState (s : MenuState) : MenuState :=
  { s with toggle_mode := false, submenu_active := false, submenu_slice := -1,
           highlighted_subitem := -1, visible := false }

/-- `RadialMenu._close_menu` (`juhradial-overlay.py`): stop the polling
timer, leave toggle mode, optionally execute the highlighted submenu item
or slice action (a slice whose action type is `"submenu"` is not
executed), then reset the submenu state and hide.  `.error` is a Python
`IndexError` from `ACTIONS[...]` when the recorded slice index exceeds
the loaded action list. -/
def closeMenu (actions : List ActionT) (s : MenuState) (execute : Bool) :
    Except Unit CloseResult :=
  let reset : MenuState := resetState s
  if execute then
    if s.submenu_active ∧ 0 ≤ s.highlighted_subitem then
      match pyIndexL actions s.submenu_slice with
      | none => .error ()
      | some a =>
        match a.submenu with
        | some sub =>
          if sub ≠ [] ∧ s.highlighted_subitem < sub.length then
            .ok { state := reset,
                  executed := some (.subItem s.submenu_slice s.highlighted_subitem),
                  haptics := ["confirm"] }
          else .ok { state := reset, executed := none, haptics := [] }
        | none => .ok { state := reset, executed := none, haptics := [] }
    else if 0 ≤ s.highlighted_slice then
      match pyIndexL actions s.highlighted_slice with
      | none => .error ()
      | some a =>
        if a.ctype = "submenu" then .ok { state := reset, executed := none, haptics := [] }
        else .ok { state := reset,
                   executed := some (.mainSlice s.highlighted_slice),
                   haptics := ["confirm"] }
    else .ok { state := reset, executed := none, haptics := [] }
  else .ok { state := reset, executed := none, haptics := [] }

/-- `RadialMenu.TAP_THRESHOLD_MS`. -/
def TAP_THRESHOLD_MS : ℚ := 250

/-- The duration `on_hide` computes: elapsed milliseconds since the menu
was shown, defaulting to 1000 (hold mode) when no show time was
recorded. -/
def hideDurationMs (s : MenuState) (now : ℚ) : ℚ :=
  match s.show_time with
  | some t => (now - t) * 1000
  | none => 1000

/-- Result of `on_hide`: the state after the handler, whether the cursor
polling timer was started, whether the window was hidden, and what was
executed. -/
structure HideResult where
  state : MenuState
  timerStarted : Bool
  hidden : Bool
  executed : Option ExecTarget

/-- `RadialMenu.on_hide` (`juhradial-overlay.py`): a duration below
`TAP_THRESHOLD_MS` enters toggle mode and starts the cursor polling
timer, leaving the menu open; otherwise the menu closes via
`_close_menu(execute=True)`. -/
def onHide (actions : List ActionT) (s : MenuState) (now : ℚ) :
    Except Unit HideResult :=
  if hideDurationMs s now < TAP_THRESHOLD_MS then
    .ok { state := { s with toggle_mode := true },
          timerStarted := true, hidden := false, executed := none }
  else
    match closeMenu actions s true with
    | .error e => .error e
    | .ok r => .ok { state := r.state, timerStarted := false, hidden := true,
                     executed := r.executed }

/-- The state part of `RadialMenu.on_show`: a second tap while visible in
toggle mode closes the menu (`_close_menu(execute=False)`); otherwise the
handler resets highlight, submenu and toggle state, records the show
time, and moves the menu center to the (already clamped) position.
Returns the new state and whether this show was a closing second tap. -/
def onShow (s : MenuState) (now : ℚ) (cx cy : ℤ) : MenuState × Bool :=
  if s.toggle_mode ∧ s.visible then
    ({ s with toggle_mode := false, submenu_active := false, submenu_slice := -1,
              highlighted_subitem := -1, visible := false }, true)
  else
    ({ highlighted_slice := -1, submenu_active := false, submenu_slice := -1,
       highlighted_subitem := -1, toggle_mode := false, show_time := some now,
       visible := true, menu_center_x := cx, menu_center_y := cy }, false)

/-- `RadialMenu.on_cursor_moved` (`juhradial-overlay.py`): recompute the
hit-tested slice from the daemon's relative offset and update the
highlight. -/
def onCursorMoved (s : MenuState) (centerRadius distance angle : ℚ) : MenuState :=
  let new_slice := hitTestSlice centerRadius distance angle
  if new_slice ≠ s.highlighted_slice then { s with highlighted_slice := new_slice } else s

/-- `RadialMenu._get_subitem_at_position`: `-1` unless a submenu is
active with a valid slice holding a non-empty submenu; the trigonometric
per-item distance test is abstracted by `geomHit` (the item index the
geometry yields, `-1` when none). -/
def subitemHitE (actions : List ActionT) (s : MenuState) (geomHit : ℤ) :
    Except Unit ℤ :=
  if s.submenu_active = false ∨ s.submenu_slice < 0 then .ok (-1)
  else
    match pyIndexL actions s.submenu_slice with
    | none => .error ()
    | some a =>
      match a.submenu with
      | none => .ok (-1)
      | some [] => .ok (-1)
      | some (_ :: _) => .ok geomHit

/-- The shared tail of `_poll_cursor` and `mouseMoveEvent`: activate a
submenu when hovering onto a new slice of type `"submenu"` with items,
then update the highlighted slice. -/
def pollTail (actions : List ActionT) (s1 : MenuState) (new_slice : ℤ) :
    Except Unit MenuState :=
  if 0 ≤ new_slice ∧ new_slice ≠ s1.highlighted_slice then
    match pyIndexL actions new_slice with
    | none => .error ()
    | some a =>
      let s2 := if a.ctype = "submenu" ∧ pyTruthySub a.submenu = true then
          { s1 with submenu_active := true, submenu_slice := new_slice,
                    highlighted_subitem := -1 }
        else s1
      .ok { s2 with highlighted_slice := new_slice }
  else
    .ok (if new_slice ≠ s1.highlighted_slice then
      { s1 with highlighted_slice := new_slice } else s1)

/-- `RadialMenu._poll_cursor` (`juhradial-overlay.py`), with the cursor
offset abstracted to its distance and normalized clockwise-from-north
angle (the poll radius is `MENU_RADIUS + 60`): submenu hover handling,
then the shared slice-update tail. -/
def pollCursorE (actions : List ActionT) (s : MenuState)
    (centerRadius distance angle : ℚ) (geomHit : ℤ) : Except Unit MenuState :=
  let new_slice :=
    if distance < centerRadius ∨ distance > MENU_RADIUS + 60 then -1
    else sliceOfAngle angle
  if s.submenu_active then
    match subitemHitE actions s geomHit with
    | .error e => .error e
    | .ok subitem =>
      if 0 ≤ subitem then
        .ok (if subitem ≠ s.highlighted_subitem then
          { s with highlighted_subitem := subitem } else s)
      else if new_slice = s.submenu_slice ∨ distance > MENU_RADIUS then
        .ok { s with highlighted_subitem := -1 }
      else
        pollTail actions
          { s with submenu_active := false, submenu_slice := -1,
                   highlighted_subitem := -1 } new_slice
  else pollTail actions s new_slice

/-- `RadialMenu.mouseMoveEvent` (`juhradial-overlay.py`) repeats
`_poll_cursor`'s hover logic line for line on the event-local offset, so
with the offset abstracted to (distance, angle) it is the same
function. -/
def mouseMoveEventE (actions : List ActionT) (s : MenuState)
    (centerRadius distance angle : ℚ) (geomHit : ℤ) : Except Unit MenuState :=
  pollCursorE actions s centerRadius distance angle geomHit

/-- Whatever `_close_menu` executes, the state it leaves behind is the
same: toggle mode off, submenu state reset, window hidden, highlight
untouched. -/
lemma closeMenu_state (actions : List ActionT) (s : MenuState) (ex : Bool)
    (r : CloseResult) (h : closeMenu actions s ex = .ok r) :
    r.state = resetState s := by
  unfold closeMenu at h
  repeat' split at h
  all_goals first
    | (cases h; rfl)
    | cases h

/-- When no submenu item is under execution, a highlighted slice whose
action type is not `"submenu"` is executed on close. -/
lemma closeMenu_executes_slice (actions : List ActionT) (s : MenuState) (a : ActionT)
    (hns : ¬(s.submenu_active = true ∧ 0 ≤ s.highlighted_subitem))
    (hsl : 0 ≤ s.highlighted_slice)
    (hidx : pyIndexL actions s.highlighted_slice = some a)
    (hty : a.ctype ≠ "submenu") :
    closeMenu actions s true =
      .ok { state := resetState s,
            executed := some (.mainSlice s.highlighted_slice),
            haptics := ["confirm"] } := by
  unfold closeMenu
  rw [if_pos rfl, if_neg hns, if_pos hsl]
  simp only [hidx]
  rw [if_neg hty]

/-- C8. When the overlay receives `HideMenu`: if the elapsed time since
the menu was shown is strictly below `TAP_THRESHOLD_MS` (250 ms), the
menu stays open in toggle mode with the cursor polling timer started;
otherwise — including when no show time was recorded, which defaults the
duration to 1000 ms — the menu closes, and a highlighted slice
(`index ≥ 0`) whose action type is not `"submenu"` has its action
executed.  The hypothesis `hsub` is the reachable-state fact that an
active submenu only ever sits on a slice of type `"submenu"`. -/
theorem onHide_tap_threshold (actions : List ActionT) (s : MenuState) (now : ℚ)
    (hsub : s.submenu_active = true →
      ∀ a, pyIndexL actions s.highlighted_slice = some a → a.ctype = "submenu") :
    (hideDurationMs s now < TAP_THRESHOLD_MS →
      onHide actions s now =
        .ok { state := { s with toggle_mode := true }, timerStarted := true,
              hidden := false, executed := none }) ∧
    (s.show_time = none → hideDurationMs s now = 1000) ∧
    (¬ hideDurationMs s now < TAP_THRESHOLD_MS →
      (∀ r, onHide actions s now = .ok r →
        r.hidden = true ∧ r.state.visible = false ∧ r.timerStarted = false) ∧
      (∀ a, 0 ≤ s.highlighted_slice →
        pyIndexL actions s.highlighted_slice = some a → a.ctype ≠ "submenu" →
        ∃ r, onHide actions s now = .ok r ∧
          r.executed = some (.mainSlice s.highlighted_slice) ∧ r.hidden = true)) := by
  refine ⟨?_, ?_, ?_⟩
  · intro h
    rw [onHide, if_pos h]
  · intro h
    simp [hideDurationMs, h]
  · intro h
    constructor
    · intro r hr
      rw [onHide, if_neg h] at hr
      cases hcm : closeMenu actions s true with
      | error e =>
        rw [hcm] at hr
        cases hr
      | ok c =>
        rw [hcm] at hr
        cases hr
        have hst := closeMenu_state actions s true c hcm
        exact ⟨rfl, by rw [hst]; rfl, rfl⟩
    · intro a hsl hidx hty
      have hns : ¬(s.submenu_active = true ∧ 0 ≤ s.highlighted_subitem) := by
        rintro ⟨hact, -⟩
        exact hty (hsub hact a hidx)
      have hcm := closeMenu_executes_slice actions s a hns hsl hidx hty
      refine ⟨{ state := resetState s, timerStarted := false, hidden := true,
                executed := some (.mainSlice s.highlighted_slice) }, ?_, rfl, rfl⟩
      rw [onHide, if_neg h, hcm]

/-- Witness for `onHide_tap_threshold`: a menu shown at t=0 and hidden at
t=0.1 s (100 ms < 250 ms) stays open in toggle mode with the polling
timer started. -/
theorem onHide_tap_threshold_witness :
    hideDurationMs (MenuState.mk (-1) false (-1) (-1) false (some 0) true 0 0)
      (1 / 10) < TAP_THRESHOLD_MS ∧
    onHide [] (MenuState.mk (-1) false (-1) (-1) false (some 0) true 0 0) (1 / 10) =
      .ok { state := MenuState.mk (-1) false (-1) (-1) true (some 0) true 0 0,
            timerStarted := true, hidden := false, executed := none } := by
  have hdur : hideDurationMs (MenuState.mk (-1) false (-1) (-1) false (some 0) true 0 0)
      (1 / 10) < TAP_THRESHOLD_MS := by
    norm_num [hideDurationMs, TAP_THRESHOLD_MS]
  exact ⟨hdur, (onHide_tap_threshold []
    (MenuState.mk (-1) false (-1) (-1) false (some 0) true 0 0) (1 / 10)
    (fun hact => by cases hact)).1 hdur⟩

/-- The state invariant of claim C10: the highlighted slice stays in
`{-1, ..., 7}`, and while no submenu is active both `submenu_slice` and
`highlighted_subitem` are `-1`. -/
def Inv (s : MenuState) : Prop :=
  -1 ≤ s.highlighted_slice ∧ s.highlighted_slice ≤ 7 ∧
  (s.submenu_active = false → s.submenu_slice = -1 ∧ s.highlighted_subitem = -1)

/-- The hit-test index is always in `{-1, ..., 7}`, with no assumption on
the angle. -/
lemma hitTestSlice_range (cr d θ : ℚ) :
    -1 ≤ hitTestSlice cr d θ ∧ hitTestSlice cr d θ ≤ 7 := by
  unfold hitTestSlice
  split
  · exact ⟨le_refl _, by norm_num⟩
  · have := sliceOfAngle_range θ
    omega

/-- The shared slice-update tail preserves the invariant for any new
slice in range. -/
lemma pollTail_inv (actions : List ActionT) (s1 : MenuState) (ns : ℤ)
    (s' : MenuState) (h1 : Inv s1) (hlo : -1 ≤ ns) (hhi : ns ≤ 7)
    (h : pollTail actions s1 ns = .ok s') : Inv s' := by
  unfold pollTail at h
  split at h
  · split at h
    · cases h
    · cases h
      split
      · exact ⟨hlo, hhi, by intro hc; cases hc⟩
      · exact ⟨hlo, hhi, h1.2.2⟩
  · cases h
    split
    · exact ⟨hlo, hhi, h1.2.2⟩
    · exact h1

/-- `_poll_cursor` (and hence `mouseMoveEvent`) preserves the
invariant. -/
lemma pollCursorE_inv (actions : List ActionT) (s : MenuState)
    (cr d θ : ℚ) (g : ℤ) (s' : MenuState) (hinv : Inv s)
    (h : pollCursorE actions s cr d θ g = .ok s') : Inv s' := by
  unfold pollCursorE at h
  set ns : ℤ := (if d < cr ∨ d > MENU_RADIUS + 60 then (-1 : ℤ) else sliceOfAngle θ)
    with hns_def
  have hns : -1 ≤ ns ∧ ns ≤ 7 := by
    rw [hns_def]
    split
    · exact ⟨le_refl _, by norm_num⟩
    · have := sliceOfAngle_range θ
      omega
  clear_value ns
  dsimp only at h
  split at h
  · rename_i hact
    split at h
    · cases h
    · split at h
      · cases h
        split
        · exact ⟨hinv.1, hinv.2.1, by intro hc; rw [hc] at hact; cases hact⟩
        · exact hinv
      · split at h
        · cases h
          exact ⟨hinv.1, hinv.2.1, by intro hc; rw [hc] at hact; cases hact⟩
        · refine pollTail_inv actions _ _ s' ?_ hns.1 hns.2 h
          exact ⟨hinv.1, hinv.2.1, fun _ => ⟨rfl, rfl⟩⟩
  · exact pollTail_inv actions s _ s' hinv hns.1 hns.2 h

/-- C10. Every modelled `RadialMenu` event handler — `on_show`,
`on_cursor_moved`, `_poll_cursor`, `mouseMoveEvent`, `_close_menu` —
preserves the invariant that `highlighted_slice ∈ {-1, ..., 7}` and that
whenever `submenu_active` is false both `submenu_slice` and
`highlighted_subitem` are `-1`; and `_close_menu` always resets
`submenu_active`, `submenu_slice` and `highlighted_subitem` regardless of
its `execute` flag. -/
theorem handlers_preserve_invariant :
    (∀ (s : MenuState) (now : ℚ) (cx cy : ℤ), Inv s → Inv (onShow s now cx cy).1) ∧
    (∀ (s : MenuState) (cr d θ : ℚ), Inv s → Inv (onCursorMoved s cr d θ)) ∧
    (∀ (actions : List ActionT) (s : MenuState) (cr d θ : ℚ) (g : ℤ)
      (s' : MenuState), Inv s → pollCursorE actions s cr d θ g = .ok s' → Inv s') ∧
    (∀ (actions : List ActionT) (s : MenuState) (cr d θ : ℚ) (g : ℤ)
      (s' : MenuState), Inv s → mouseMoveEventE actions s cr d θ g = .ok s' → Inv s') ∧
    (∀ (actions : List ActionT) (s : MenuState) (ex : Bool) (r : CloseResult),
      closeMenu actions s ex = .ok r →
      r.state.submenu_active = false ∧ r.state.submenu_slice = -1 ∧
      r.state.highlighted_subitem = -1 ∧ (Inv s → Inv r.state)) := by
  refine ⟨?_, ?_, ?_, ?_, ?_⟩
  · intro s now cx cy hinv
    unfold onShow
    split
    · exact ⟨hinv.1, hinv.2.1, fun _ => ⟨rfl, rfl⟩⟩
    · exact ⟨by norm_num, by norm_num, fun _ => ⟨rfl, rfl⟩⟩
  · intro s cr d θ hinv
    have := hitTestSlice_range cr d θ
    dsimp only [onCursorMoved]
    split
    · exact ⟨this.1, this.2, hinv.2.2⟩
    · exact hinv
  · intro actions s cr d θ g s' hinv h
    exact pollCursorE_inv actions s cr d θ g s' hinv h
  · intro actions s cr d θ g s' hinv h
    exact pollCursorE_inv actions s cr d θ g s' hinv h
  · intro actions s ex r h
    have hst := closeMenu_state actions s ex r h
    rw [hst]
    exact ⟨rfl, rfl, rfl, fun hinv => ⟨hinv.1, hinv.2.1, fun _ => ⟨rfl, rfl⟩⟩⟩

/-- Witness for `handlers_preserve_invariant`: the freshly-constructed
state satisfies the invariant, and so does the state after a cursor move
to distance 100, angle 90. -/
theorem handlers_preserve_invariant_witness :
    Inv (MenuState.mk (-1) false (-1) (-1) false none false 0 0) ∧
    Inv (onCursorMoved (MenuState.mk (-1) false (-1) (-1) false none false 0 0)
      45 100 90) := by
  have h0 : Inv (MenuState.mk (-1) false (-1) (-1) false none false 0 0) :=
    ⟨by norm_num, by norm_num, fun _ => ⟨rfl, rfl⟩⟩
  exact ⟨h0, handlers_preserve_invariant.2.1
    (MenuState.mk (-1) false (-1) (-1) false none false 0 0) 45 100 90 h0⟩

end JuhRadial
